import Mathlib

/-!
Verification development for the lemonblocks status-bar engine.

The JavaScript sources are shallowly embedded: pure computations become Lean
functions over `String`/`Nat`/`Int`; the timer machinery (setTimeout /
setInterval / clearTimeout / clearInterval) is embedded as explicit state
with a list of live timer identifiers; callback-style code becomes functions
from their inputs to the produced outputs, with `Except` capturing a thrown
JavaScript runtime error. String operations are implemented over the
character list `String.data` so that every definition is fully executable
and kernel-reducible.
-/

/-! ## JavaScript string primitives (over character lists) -/

/-- Build a string from a character list. -/
def ofChars (cs : List Char) : String := String.mk cs

/-- Replace the first occurrence of the pattern `pat` by `rep`
(the semantics of JavaScript `String.prototype.replace` with a string
pattern, as in `action.replace(':', '\\:')` of `src/lib/util.js`). -/
def replaceFirstL (pat rep : List Char) : List Char → List Char
  | [] => []
  | c :: rest =>
      if pat ≠ [] ∧ pat.isPrefixOf (c :: rest) then
        rep ++ List.drop pat.length (c :: rest)
      else
        c :: replaceFirstL pat rep rest

/-- JavaScript `s.replace(pat, rep)` with a plain-string pattern:
only the first occurrence is replaced. -/
def jsReplaceFirst (s pat rep : String) : String :=
  ofChars (replaceFirstL pat.data rep.data s.data)

/-- Split at the first occurrence of `pat`: the text before it and after it. -/
def splitFirstL (pat : List Char) : List Char → Option (List Char × List Char)
  | [] => if pat.isEmpty then some ([], []) else none
  | c :: rest =>
      if pat ≠ [] ∧ pat.isPrefixOf (c :: rest) then
        some ([], List.drop pat.length (c :: rest))
      else
        (splitFirstL pat rest).map (fun p => (c :: p.1, p.2))

/-- Split a string at the first occurrence of `pat`. -/
def splitFirst (s pat : String) : Option (String × String) :=
  (splitFirstL pat.data s.data).map (fun p => (ofChars p.1, ofChars p.2))

/-- Whether `pat` occurs as a contiguous substring. -/
def containsSubL (pat : List Char) : List Char → Bool
  | [] => pat.isEmpty
  | c :: rest => pat.isPrefixOf (c :: rest) || containsSubL pat rest

/-- Whether `pat` occurs as a contiguous substring of `s`. -/
def containsSub (s pat : String) : Bool :=
  containsSubL pat.data s.data

/-- Split on the comma separator, as JavaScript
`blocks.split(LOG_BLOCKS_SEP)` with `LOG_BLOCKS_SEP = ','`. -/
def splitCommaL : List Char → List Char → List String
  | [], acc => [ofChars acc.reverse]
  | c :: rest, acc =>
      if c = ',' then ofChars acc.reverse :: splitCommaL rest []
      else splitCommaL rest (c :: acc)

/-- JavaScript `s.split(',')`. -/
def jsSplitComma (s : String) : List String := splitCommaL s.data []

/-- JavaScript `s.trim()`: strip whitespace from both ends. -/
def jsTrim (s : String) : String :=
  ofChars (((s.data.dropWhile Char.isWhitespace).reverse.dropWhile
    Char.isWhitespace).reverse)

/-- Join a list of strings with a separator (lodash-free model of
`Array.prototype.join`). -/
def intercalateStr (sep : String) : List String → String
  | [] => ""
  | [a] => a
  | a :: rest => a ++ sep ++ intercalateStr sep rest

/-- `Array.prototype.join('')` over block queries, as used by both bar
compositors in `src/unnamed/part_000`. -/
def composeLine : List String → String
  | [] => ""
  | [q] => q
  | q :: rest => q ++ composeLine rest

/-- lodash `_.trunc(s, {length, omission})`: strings no longer than
`len` are returned unchanged, otherwise the string is cut so that the
result, with the omission appended, has exactly `len` characters. -/
def ldTrunc (s : String) (len : Nat) (om : String) : String :=
  if s.data.length ≤ len then s
  else ofChars (s.data.take (len - om.data.length)) ++ om

/-! ## Configuration (src/lib/config.js) -/

def config_cBG : String := "#ff000000"
def config_cUrgent : String := "#ffff0000"
def config_cAccent : String := "#ff888888"
def config_cUnderline : String := "#ff222222"
def config_fudgeTimeout : Nat := 50
def config_batCritical : Nat := 15
def config_maxSsidLen : Nat := 20
def config_trunc : String := "…"
def config_termExec : String := "urxvt256cc -e"
def config_volPercent : Nat := 5
def config_animFrameLen : Nat := 20

/-- `config.get` restricted to the color keys used by `addBG`. -/
def configColor (key : String) : String :=
  if key = "cBG" then config_cBG
  else if key = "cUrgent" then config_cUrgent
  else if key = "cAccent" then config_cAccent
  else if key = "cUnderline" then config_cUnderline
  else ""

/-! ## src/lib/util.js -/

def LOG_BLOCKS_FILE : String := "/tmp/lemonblocks_update_blocks"
def LOG_BLOCKS_SEP : String := ","

/-- The string a JavaScript template literal produces for the `button`
argument after `button = button || ''` (a missing button and the falsy
button number 0 both render as the empty string). -/
def buttonRepr : Option Nat → String
  | none => ""
  | some b => if b = 0 then "" else Nat.repr b

/-- `util.addAction` of `src/lib/util.js` lines 31-39, with the process id
passed explicitly in place of the global `process.pid`.  Produces
the clickable-region markup around `text`. -/
def addActionFull (pid : Nat) (text action : String) (button : Option Nat)
    (updateBlocks : Option (List String)) : String :=
  let action := match updateBlocks with
    | none => action
    | some ubs =>
        action ++ "; echo " ++ "\"" ++ intercalateStr LOG_BLOCKS_SEP ubs ++ "\""
          ++ " > " ++ LOG_BLOCKS_FILE ++ "; kill -SIGUSR1 " ++ Nat.repr pid
  "%\x7bA" ++ buttonRepr button ++ ":" ++ jsReplaceFirst action ":" "\\:"
    ++ ":\x7d" ++ text ++ "%\x7bA\x7d"

/-- `util.addAction` as called without the `updateBlocks` argument. -/
def addAction (text action : String) (button : Option Nat) : String :=
  addActionFull 0 text action button none

/-- `util.addBG` of `src/lib/util.js` lines 51-53: wrap `text` in a
background-color directive for the configured color of `configColorKey`,
closing with the default background. -/
def addBG (text configColorKey : String) : String :=
  "%\x7bB" ++ configColor configColorKey ++ "\x7d" ++ text
    ++ "%\x7bB" ++ config_cBG ++ "\x7d"

/-- Modelled from the spec: `util.toggleAttr` is called by `Block.query`
and by the expandable-block button rendering, but its definition is not
among the sources; the spec lists attribute toggling among the inline
markup directives (and the workspace blocks of the older prototypes wrap
focused entries in attribute-toggle directives).  Modelled as wrapping the
text in a toggle-on and a toggle-off directive for the attribute. -/
def toggleAttr (text attr : String) : String :=
  "%\x7b+" ++ attr ++ "\x7d" ++ text ++ "%\x7b-" ++ attr ++ "\x7d"

/-! ## Block contract (newest generation, second document of src/lib/util.js)

`Block.query` (lines 126-128): an empty `_output` contributes nothing,
a non-empty `_output` is wrapped in the underline attribute toggle and
the default block background. -/

/-- `Block.query` of `src/lib/util.js` lines 126-128, as a function of the
block's `_output` field. -/
def Block.query (output : String) : String :=
  if output ≠ "" then addBG (toggleAttr output "u") "cBG" else ""

/-- `StaticBlock.query` of `src/lib/blocks.js` lines 65-67: the manual
override that returns the raw `_output` with no block styling. -/
def StaticBlock.query (output : String) : String := output

/-! ## The two bar compositors (src/unnamed/part_000)

The first bar (`Bar.render`, lines 51-60) remembers the previously printed
line and prints only on change; the second bar (`Bar.output`, lines 119-124)
prints the composed line unconditionally on every update notification.
Both are modelled as functions of the list of the blocks' current `query()`
values; a render step returns the printed lines of that step. -/

/-- The deduplicating bar state: the previously printed line (`this.prev`). -/
structure RBar where
  prev : String
deriving DecidableEq

/-- `Bar.render` of `src/unnamed/part_000` lines 51-60: compose the
queries; if the result differs from the previous line, remember it and
print it (exactly once), otherwise do nothing. -/
def Bar.render (texts : List String) (s : RBar) : RBar × List String :=
  let cur := composeLine texts
  if cur ≠ s.prev then (⟨cur⟩, [cur]) else (s, [])

/-- Iterate `Bar.render` over a sequence of update notifications, each
carrying the blocks' query values at that notification; collects every
printed line in order. -/
def Bar.renderRun : List (List String) → RBar → RBar × List String
  | [], s => (s, [])
  | ts :: rest, s =>
      ((Bar.renderRun rest (Bar.render ts s).1).1,
       (Bar.render ts s).2 ++ (Bar.renderRun rest (Bar.render ts s).1).2)

/-- `Bar.output` of `src/unnamed/part_000` lines 119-124: print the
composed line unconditionally. -/
def Bar.output (texts : List String) : List String := [composeLine texts]

/-- Iterate `Bar.output` over a sequence of update notifications. -/
def Bar.outputRun (tss : List (List String)) : List String :=
  (tss.map Bar.output).flatten

/-! ## Debounce ("fudge") mechanism

`VolumeBlock.update` (src/lib/util.js lines 648-684), `BatteryBlock.update`
(lines 582-635), `SsidBlock.update` and `PlayStatusBlock.update` all share
the idiom

  if (this.fudge) clearTimeout(this.fudge);
  this.fudge = setTimeout(cb, delay);

Two embeddings are used.  `FudgeState`/`fudgeTrigger` tracks the timer
handle and the set of live timer identifiers across triggers.
`debounceExec` gives the timeline semantics: processing the sorted trigger
times in order, the timeout armed at trigger time `t` actually fires
(at `t + d`) exactly when it is not cancelled by the following trigger,
i.e. when `t + d ≤ t'` for the next trigger time `t'`. -/

/-- The debounce state of one block: the `this.fudge` handle, a fresh-id
counter, and the identifiers of timers that are armed and not cancelled. -/
structure FudgeState where
  fudge : Option Nat
  nextId : Nat
  active : List Nat
deriving DecidableEq

/-- A block before its first trigger: `this.fudge` is undefined. -/
def fudgeInit : FudgeState := ⟨none, 0, []⟩

/-- One trigger of the debounced update: cancel the outstanding timeout
if there is one, then arm a fresh one. -/
def fudgeTrigger (s : FudgeState) : FudgeState :=
  let s1 := match s.fudge with
    | some t => { s with active := s.active.erase t }
    | none => s
  { s1 with fudge := some s1.nextId, active := s1.active ++ [s1.nextId],
            nextId := s1.nextId + 1 }

/-- `n` consecutive triggers from the initial state. -/
def fudgeRun : Nat → FudgeState
  | 0 => fudgeInit
  | n + 1 => fudgeTrigger (fudgeRun n)

/-- The debounce invariant: at most one armed timer, and every armed timer
is the one held in `this.fudge` (with an identifier below the fresh-id
counter). -/
def FudgeInv (s : FudgeState) : Prop :=
  s.active.length ≤ 1 ∧ ∀ t ∈ s.active, s.fudge = some t ∧ t < s.nextId

/-- Timeline semantics of the debounced callback for sorted trigger times:
the timeout armed at `t` runs at `t + d` unless the next trigger arrives
first and cancels it. -/
def debounceExec (d : Nat) : List Nat → List Nat
  | [] => []
  | [t] => [t + d]
  | t :: t' :: rest =>
      if t + d ≤ t' then (t + d) :: debounceExec d (t' :: rest)
      else debounceExec d (t' :: rest)

/-! ## Signal-addressed dispatch (src/lib/util.js lines 88-118)

Every block's constructor installs a SIGUSR1 handler that invokes
`this.update()` exactly when `blocks.indexOf(this.constructor.name) > -1`
for the side-channel list `blocks`, and a SIGUSR2 handler doing the same
with `this.action()`.  A block is embedded as its type tag together with
its output state; the per-block effect of `update()`/`action()` is passed
as a function. -/

/-- A block as seen by the signal dispatcher: its constructor name and
its current output state. -/
structure DBlock where
  tag : String
  out : String
deriving DecidableEq

/-- JavaScript `Array.prototype.indexOf` on an array of strings:
the index of the first occurrence, or `-1`. -/
def jsIndexOf : List String → String → Int
  | [], _ => -1
  | a :: rest, x =>
      if a = x then 0
      else if jsIndexOf rest x = -1 then -1 else jsIndexOf rest x + 1

/-- The SIGUSR1 handler body of one block (`src/lib/util.js` lines 94-104)
for a successfully read side-channel list `L`. -/
def sigusr1Handler (upd : DBlock → DBlock) (L : List String) (b : DBlock) :
    DBlock :=
  if jsIndexOf L b.tag > -1 then upd b else b

/-- The SIGUSR2 handler body of one block (`src/lib/util.js` lines 107-117)
for a successfully read side-channel list `L`. -/
def sigusr2Handler (act : DBlock → DBlock) (L : List String) (b : DBlock) :
    DBlock :=
  if jsIndexOf L b.tag > -1 then act b else b

/-- Delivery of SIGUSR1: every block's own handler runs. -/
def sigusr1Dispatch (upd : DBlock → DBlock) (L : List String)
    (bs : List DBlock) : List DBlock :=
  bs.map (sigusr1Handler upd L)

/-- Delivery of SIGUSR2: every block's own handler runs. -/
def sigusr2Dispatch (act : DBlock → DBlock) (L : List String)
    (bs : List DBlock) : List DBlock :=
  bs.map (sigusr2Handler act L)

/-! ## getUpdateBlocks (src/lib/util.js lines 41-49)

  fs.readFile(LOG_BLOCKS_FILE, ..., (err, data) => {
    if (err)
      callback(err);
    let blocks = data.trim();
    callback(null, blocks ? blocks.split(LOG_BLOCKS_SEP) : []);
  });

On a read error `data` is `undefined`; the `if (err)` branch invokes the
callback with the error but does not return, so control falls through to
`data.trim()`, which raises an uncaught TypeError inside the readFile
callback.  The embedding takes the outcome of the read (`none` = error,
`some data` = success), returns the list of callback invocations made, and
the runtime error, if one escaped the handler. -/

/-- A thrown JavaScript runtime error. -/
inductive JsError where
  | typeError : JsError
deriving DecidableEq

/-- One invocation of the `getUpdateBlocks` callback: error-first, or the
parsed list of block names. -/
inductive GUBCall where
  | errCall : GUBCall
  | listCall (blocks : List String) : GUBCall
deriving DecidableEq

/-- JavaScript `data.trim()` where `data` may be `undefined`: member
access on `undefined` throws a TypeError. -/
def jsTrimOpt : Option String → Except JsError String
  | none => Except.error JsError.typeError
  | some s => Except.ok (jsTrim s)

/-- `util.getUpdateBlocks` of `src/lib/util.js` lines 41-49, as a function
of the outcome of the `fs.readFile` (`readErr` true and `data = none` on a
failed read).  Returns the callback invocations performed and the runtime
error escaping the handler, if any. -/
def getUpdateBlocks (readErr : Bool) (data : Option String) :
    List GUBCall × Option JsError :=
  let calls := if readErr then [GUBCall.errCall] else []
  match jsTrimOpt data with
  | Except.error e => (calls, some e)
  | Except.ok blocks =>
      (calls ++ [GUBCall.listCall
        (if blocks ≠ "" then jsSplitComma blocks else [])], none)

/-! ## DatetimeBlock scheduling (src/lib/util.js lines 358-365)

  let delay = (60 * 1000) - (m.millisecond() + m.second() * 1000)
              + config.get('fudgeTimeout');
  super(60 * 1000, delay);

`IntervalBlock` (lines 289-307) runs `update()` once after `delay`, then
every `interval` thereafter. -/

/-- The initial delay computed by the `DatetimeBlock` constructor from the
moment's millisecond and second fields. -/
def DatetimeBlock.delay (ms sec : Nat) : Nat :=
  60 * 1000 - (ms + sec * 1000) + config_fudgeTimeout

/-- The time (relative to construction) of the k-th scheduled `update()`
of an `IntervalBlock`: once at `delay`, then every `interval`. -/
def IntervalBlock.fireTime (delay interval k : Nat) : Nat :=
  delay + interval * k

/-- The time of the k-th scheduled recomputation of a `DatetimeBlock`
constructed at `sec` seconds and `ms` milliseconds into the minute. -/
def DatetimeBlock.fireTime (ms sec k : Nat) : Nat :=
  IntervalBlock.fireTime (DatetimeBlock.delay ms sec) (60 * 1000) k

/-! ## SsidBlock and VolumeBlock update callbacks (src/lib/util.js)

`SsidBlock.update` (lines 700-730): the `iwgetid` callback renders
" disconnected " with urgent background when the command failed, else the
matched ESSID; either way the result is wrapped in a clickable region.
`VolumeBlock.update` (lines 648-684): the `amixer get Master` callback
emits an error event and returns, leaving `this._output` unchanged, when
the command failed; on success it parses volume and mute state.
In both, indexing `[1]` into a failed `String.prototype.match` (`null`)
throws a TypeError. -/

/-- First capture of `/ESSID:"(.*?)"$/m` against the `iwgetid` output:
the text between the first `ESSID:"` and the following quote (the
end-of-line anchor of the original regex is not modelled; no settled
statement depends on this branch). -/
def essidMatch (out : String) : Option String :=
  match splitFirst out "ESSID:\"" with
  | some p => (splitFirst p.2 "\"").map (fun q => q.1)
  | none => none

/-- `SsidBlock.update`'s `iwgetid` callback (src/lib/util.js lines
705-727) as a function of whether the command failed and of its stdout;
returns the new `_output`, or the TypeError thrown on unparsable output. -/
def SsidBlock.updateCb (err : Bool) (out : String) : Except JsError String :=
  if err then
    Except.ok (addAction
      (addBG (" " ++ ldTrunc "disconnected" config_maxSsidLen config_trunc
        ++ " ") "cUrgent")
      (config_termExec ++ " nmtui") none)
  else
    match essidMatch out with
    | some ssid =>
        Except.ok (addAction
          (" " ++ ldTrunc ssid config_maxSsidLen config_trunc ++ " ")
          (config_termExec ++ " nmtui") none)
    | none => Except.error JsError.typeError

/-- Captures of `/\[(\d{1,3})%\] \[(on|off)\]$/m` against the `amixer`
output: the volume digits and the on/off flag (approximated around the
separator `"%] ["`; no settled statement depends on this branch). -/
def volMatch (out : String) : Option (String × String) :=
  match splitFirst out "%] [" with
  | some p =>
      match splitFirst p.2 "]" with
      | some q =>
          some (ofChars ((p.1.data.reverse.takeWhile (fun c => c.isDigit)
            ).reverse), q.1)
      | none => none
  | none => none

/-- The result of one run of the `VolumeBlock` amixer callback: the
block's `_output` afterwards and whether an error event was emitted. -/
structure VolState where
  output : String
  errorEmitted : Bool
deriving DecidableEq

/-- `VolumeBlock.update`'s `amixer` callback (src/lib/util.js lines
653-681) as a function of whether the command failed, of its stdout and
of the previous `_output`: on failure it emits an error event and
returns with `_output` unchanged. -/
def VolumeBlock.updateCb (err : Bool) (out : String) (prev : String) :
    Except JsError VolState :=
  if err then Except.ok ⟨prev, true⟩
  else
    match volMatch out with
    | none => Except.error JsError.typeError
    | some pm =>
        let output := " " ++ pm.1 ++ " "
        let output := if pm.2 = "off" then addBG output "cUrgent" else output
        let output := addAction output "amixer set Master toggle" (some 1)
        let output := addAction output
          ("amixer set Master " ++ Nat.repr config_volPercent ++ "%+") (some 4)
        let output := addAction output
          ("amixer set Master " ++ Nat.repr config_volPercent ++ "%-") (some 5)
        Except.ok ⟨output, false⟩

/-! ## BatteryBlock rendering (src/lib/util.js lines 582-635)

The linux-battery callback builds `stats` from an abbreviated
time-remaining, a state symbol, and the parsed percentage, then applies

  if (percent <= config.get('batCritical') &&
      bat.state !== 'charging' ||
      bat.state === 'fully-charged')
    output = util.addBG(output, 'cUrgent');

Operator precedence groups this as
`(percent <= critical && state !== 'charging') || state === 'fully-charged'`. -/

/-- An ASCII lowercase letter, the character class `[a-z]`. -/
def isAsciiLower (c : Char) : Bool := 'a' ≤ c && c ≤ 'z'

/-- Match `\s*([a-z])[a-z]*` at the head of the character list: skip
whitespace, then require a lowercase letter; yields the letter and the
characters after the letter run. -/
def wsThenLower : List Char → Option (Char × List Char)
  | [] => none
  | c :: rest =>
      if c.isWhitespace then wsThenLower rest
      else if isAsciiLower c then some (c, rest.dropWhile isAsciiLower)
      else none

/-- JavaScript `time.replace(/\s*([a-z])[a-z]*/, '$1')`: the first
whitespace-then-letters run collapses to its first letter. -/
def timeAbbrevL : List Char → List Char
  | [] => []
  | c :: rest =>
      match wsThenLower (c :: rest) with
      | some p => p.1 :: p.2
      | none => c :: timeAbbrevL rest

/-- The abbreviated time-remaining string pushed onto `stats`. -/
def jsTimeAbbrev (s : String) : String := ofChars (timeAbbrevL s.data)

/-- The charging-state symbol of the `switch (bat.state)`. -/
def batteryStateSymbol (state : String) : Option String :=
  if state = "fully-charged" then some "✓"
  else if state = "charging" then some "↑"
  else if state = "discharging" then some "↓"
  else none

/-- JavaScript `bat.percentage.replace(/[^\d]/, '')`: remove the first
non-digit character. -/
def removeFirstNonDigitL : List Char → List Char
  | [] => []
  | c :: rest => if c.isDigit then c :: removeFirstNonDigitL rest else rest

/-- `Number.parseInt`: the leading digit run, or none (NaN) when the
string does not start with a digit. -/
def jsParseIntNat (s : List Char) : Option Nat :=
  let ds := s.takeWhile (fun c => c.isDigit)
  if ds.isEmpty then none
  else some (ds.foldl (fun n c => n * 10 + (c.toNat - '0'.toNat)) 0)

/-- The `percent` value of the battery callback:
`Number.parseInt(bat.percentage.replace(/[^\d]/, ''))`, `none` for NaN. -/
def jsPercent (percentage : String) : Option Nat :=
  jsParseIntNat (removeFirstNonDigitL percentage.data)

/-- How a number renders inside a template literal (`NaN` included). -/
def percentRepr : Option Nat → String
  | some n => Nat.repr n
  | none => "NaN"

/-- The urgency test of `BatteryBlock.update` (src/lib/util.js lines
624-626) with JavaScript operator precedence; a NaN percentage compares
false. -/
def batteryUrgentCond (percent : Option Nat) (state : String) : Bool :=
  ((match percent with
    | some p => decide (p ≤ config_batCritical)
    | none => false) && !(state = "charging")) || (state = "fully-charged")

/-- The unstyled ` ${stats.join(' ')} ` text of the battery callback. -/
def BatteryBlock.plainText (time : Option String) (state : String)
    (percentage : String) : String :=
  let stats := (match time with | some t => [jsTimeAbbrev t] | none => [])
    ++ (match batteryStateSymbol state with | some s => [s] | none => [])
    ++ [percentRepr (jsPercent percentage)]
  " " ++ intercalateStr " " stats ++ " "

/-- The final `_output` assigned by the battery callback (src/lib/util.js
lines 588-629), as a function of the first battery's time-remaining field
(already chosen by `bat.timeToEmpty || bat.timeToFull`), its state and
its percentage string. -/
def BatteryBlock.updateOutput (time : Option String) (state : String)
    (percentage : String) : String :=
  if batteryUrgentCond (jsPercent percentage) state then
    addBG (BatteryBlock.plainText time state percentage) "cUrgent"
  else
    BatteryBlock.plainText time state percentage

/-! ## AnimatedExpandableBlock timers (src/lib/util.js lines 208-286)

The state machine of `action()`/`update()` is embedded with the timer
fields made explicit: `interval` is the `this.interval` handle, `active`
the identifiers of interval timers that are armed and not cancelled, and
`nextId` a fresh-identifier counter for `setInterval`.  Rendering
(`this._output` and the emitted update events) is independent of the
timer and index bookkeeping and is not part of this state.

`update()` derives the animation token array from the children's current
text on every call; the token array is therefore a parameter `arr` of
every transition.  The re-entrant `this.update()` performed by `animFunc`
always runs with `this.startExpand == false` (the flag is consumed at the
top of the update that created `animFunc`), so it is embedded as
`animTail`, the part of `update()` after the start-animation branch.
The constructor leaves `this.index` undefined until the first `update()`
assigns it; the initial state carries the collapsed value 0. -/

/-- The timer- and animation-relevant fields of an
`AnimatedExpandableBlock`. -/
structure AnimState where
  expanded : Bool
  startExpand : Bool
  expanding : Bool
  index : Int
  interval : Option Nat
  nextId : Nat
  active : List Nat
deriving DecidableEq

/-- The state after the constructor (lines 210-214). -/
def animInit (startsExpanded : Bool) : AnimState :=
  { expanded := startsExpanded, startExpand := false, expanding := false,
    index := 0, interval := none, nextId := 0, active := [] }

/-- Modelled from the spec: `util.nextAnimationIdx` is called at line 251
but is not among the sources; the spec says the animation steps an index
one token at a time per frame, forward when expanding and backward when
collapsing (token-level stepping makes the control-sequence skipping a
property of the token array, which is a parameter here). -/
def nextAnimationIdx (_arr : List String) (i : Int) (reverse : Bool) : Int :=
  if reverse then i - 1 else i + 1

/-- `clearInterval(this.interval)`: the held timer, if armed, stops being
active; the handle itself is not erased by JavaScript `clearInterval`. -/
def clearIntervalOn (s : AnimState) : AnimState :=
  match s.interval with
  | some t => { s with active := s.active.erase t }
  | none => s

/-- `this.interval = setInterval(animFunc, ...)`: arm a fresh timer and
store its handle. -/
def setIntervalOn (s : AnimState) : AnimState :=
  { s with interval := some s.nextId, active := s.active ++ [s.nextId],
           nextId := s.nextId + 1 }

/-- The tail of `update()` after the start-animation branch (lines
263-265): outside of an animation the index snaps to the boundary of the
current token array. -/
def animTail (arr : List String) (s : AnimState) : AnimState :=
  if s.expanding then s
  else { s with index := if s.expanded then (arr.length : Int) else 0 }

/-- `animFunc` (lines 250-257): step the index, stop the animation at the
boundary (cancelling the held interval timer), then re-enter `update()`
(which runs with `startExpand` already consumed). -/
def animFrame (arr : List String) (s : AnimState) : AnimState :=
  let s1 := { s with index := nextAnimationIdx arr s.index (!s.expanded) }
  let s2 :=
    if (s1.expanded && decide ((arr.length : Int) ≤ s1.index))
        || decide (s1.index ≤ 0) then
      { (clearIntervalOn s1) with expanding := false }
    else s1
  animTail arr s2

/-- `AnimatedExpandableBlock.update` (lines 223-286), restricted to the
timer and index bookkeeping: when `startExpand` is set, consume it, cancel
the previously armed interval timer, run `animFunc` once synchronously,
then arm a fresh interval timer. -/
def animUpdate (arr : List String) (s : AnimState) : AnimState :=
  if s.startExpand then
    let s1 := { s with startExpand := false, expanding := true }
    let s2 := clearIntervalOn s1
    let s3 := animFrame arr s2
    animTail arr (setIntervalOn s3)
  else animTail arr s

/-- `AnimatedExpandableBlock.action` (lines 217-221): toggle the target
state, request an animation start, and update. -/
def animAction (arr : List String) (s : AnimState) : AnimState :=
  animUpdate arr { s with expanded := !s.expanded, startExpand := true }

/-- The events that can reach an animated block: an `action()` (toggle), a
child-triggered `update()`, and a firing of the armed interval timer. -/
inductive AnimEvent where
  | act (arr : List String) : AnimEvent
  | upd (arr : List String) : AnimEvent
  | fire (arr : List String) : AnimEvent

/-- One event transition.  A timer firing only happens for a timer that
is armed and not cancelled. -/
def animStep (s : AnimState) : AnimEvent → AnimState
  | AnimEvent.act arr => animAction arr s
  | AnimEvent.upd arr => animUpdate arr s
  | AnimEvent.fire arr =>
      match s.interval with
      | some t => if t ∈ s.active then animFrame arr s else s
      | none => s

/-- The state reached from a freshly constructed collapsed block by a
sequence of events. -/
def animRun (es : List AnimEvent) : AnimState :=
  es.foldl animStep (animInit false)

/-- The timer invariant of an animated block: the start-animation flag is
consumed within the `update()` that observes it, at most one interval
timer is armed, and every armed timer is the one currently held in
`this.interval`, with an identifier below the fresh-id counter. -/
def AnimInv (s : AnimState) : Prop :=
  s.startExpand = false ∧ s.active.length ≤ 1 ∧
    ∀ t ∈ s.active, s.interval = some t ∧ t < s.nextId

/-! ## Claim statements and proofs -/

/-- The clickable-region form asserted by the spec, with every colon of
the command escaped (a definition following the claim's words, for
comparison with `addAction`). -/
def replaceAllColonsL : List Char → List Char
  | [] => []
  | c :: rest =>
      if c = ':' then '\\' :: ':' :: replaceAllColonsL rest
      else c :: replaceAllColonsL rest

/-- The claim's literal clickable-region form. -/
def addActionSpec (text command : String) (button : Nat) : String :=
  "%\x7bA" ++ Nat.repr button ++ ":" ++ ofChars (replaceAllColonsL command.data)
    ++ ":\x7d" ++ text ++ "%\x7bA\x7d"

/-- Number of colons in a character list. -/
def countColonsL : List Char → Nat
  | [] => 0
  | c :: rest => (if c = ':' then 1 else 0) + countColonsL rest

/-- Number of colons in a string. -/
def countColons (s : String) : Nat := countColonsL s.data

lemma replaceAllColonsL_of_no_colon (l : List Char)
    (h : countColonsL l = 0) : replaceAllColonsL l = l := by
  induction l with
  | nil => rfl
  | cons c rest ih =>
      by_cases hc : c = ':'
      · exfalso
        simp [countColonsL, hc] at h
      · simp only [countColonsL, if_neg hc, Nat.zero_add] at h
        simp only [replaceAllColonsL, if_neg hc]
        rw [ih h]

lemma replaceFirstL_colon_eq_all (l : List Char)
    (h : countColonsL l ≤ 1) :
    replaceFirstL [':'] ['\\', ':'] l = replaceAllColonsL l := by
  induction l with
  | nil => rfl
  | cons c rest ih =>
      by_cases hc : c = ':'
      · subst hc
        have hrest : countColonsL rest = 0 := by
          simp [countColonsL] at h
          omega
        simp only [replaceFirstL, replaceAllColonsL, if_pos rfl]
        have hpre : [':'].isPrefixOf (':' :: rest) = true := by
          simp [List.isPrefixOf]
        rw [if_pos ⟨by simp, hpre⟩]
        simp [replaceAllColonsL_of_no_colon rest hrest]
      · have hpre : [':'].isPrefixOf (c :: rest) = false := by
          simp [List.isPrefixOf]
          intro hh
          exact absurd hh.symm hc
        simp only [replaceFirstL, replaceAllColonsL, if_neg hc]
        rw [if_neg (by simp [hpre])]
        have hrest : countColonsL rest ≤ 1 := by
          simp only [countColonsL, if_neg hc, Nat.zero_add] at h
          exact h
        rw [ih hrest]

/-- Claim C8: for a nonzero button `addAction` produces exactly the
click-open tag with the button and the command with colons escaped,
then the text, then the click-close tag; amended so that — as
`action.replace(':', '\\:')` does with a string pattern — only the FIRST
colon of the command is escaped, which coincides with the claim's form
whenever the command has at most one colon. -/
theorem C8_thm (text command : String) (b : Nat) (hb : b ≠ 0) :
    (addAction text command (some b)
      = "%\x7bA" ++ Nat.repr b ++ ":" ++ jsReplaceFirst command ":" "\\:"
        ++ ":\x7d" ++ text ++ "%\x7bA\x7d")
    ∧ (countColons command ≤ 1 →
        addAction text command (some b) = addActionSpec text command b) := by
  constructor
  · simp [addAction, addActionFull, buttonRepr, hb]
  · intro h
    simp only [addAction, addActionFull, buttonRepr, if_neg hb,
      addActionSpec, jsReplaceFirst, ofChars]
    simp only [countColons] at h
    rw [replaceFirstL_colon_eq_all command.data h]

/-- Claim C8 witness: with a single-colon command the code's output
matches the claimed literal form. -/
theorem C8_wit :
    addAction "t" "a:b" (some 1) = addActionSpec "t" "a:b" 1 :=
  (C8_thm "t" "a:b" 1 (by decide)).2 (by decide)

/-- Claim C8 counterexample: for a command with two colons the code
escapes only the first one, so the output differs from the claimed
all-colons-escaped form. -/
theorem C8_cex :
    addAction "t" "a:b:c" (some 1) ≠ addActionSpec "t" "a:b:c" 1
    ∧ addAction "t" "a:b:c" (some 1)
        = "%\x7bA1:a\\:b:c:\x7dt%\x7bA\x7d" := by
  constructor
  · decide
  · decide

/-- Claim C9: blocks with empty current text contribute nothing to the
composed line; amended in what the third block contributes: with the base
`Block.query` of `src/lib/util.js` a block whose text is "X" contributes
its styled rendering (background and attribute-toggle directives around
"X"), so the composed emission equals that styled form; it is exactly the
bare "X" when the block renders raw text, as `StaticBlock.query` of
`src/lib/blocks.js` does.  Either way the empty blocks leave no gap
marker and no styling residue. -/
theorem C9_thm (x : String) (h : x ≠ "") :
    composeLine [Block.query "", Block.query "", StaticBlock.query x] = x
    ∧ composeLine [Block.query "", Block.query "", Block.query x]
        = addBG (toggleAttr x "u") "cBG" := by
  constructor
  · rfl
  · show Block.query x = addBG (toggleAttr x "u") "cBG"
    rw [Block.query, if_pos h]

/-- Claim C9 witness: the concrete three-block bar of the claim. -/
theorem C9_wit :
    composeLine [Block.query "", Block.query "", StaticBlock.query "X"] = "X"
    ∧ composeLine [Block.query "", Block.query "", Block.query "X"]
        = addBG (toggleAttr "X" "u") "cBG" :=
  C9_thm "X" (by decide)

/-- Claim C9 counterexample: with the cited `Block.query`, the bar with
two empty blocks and one block whose current text is "X" does not compose
to exactly "X" — the non-empty block's contribution carries the block
styling. -/
theorem C9_cex :
    composeLine [Block.query "", Block.query "", Block.query "X"] ≠ "X" := by
  decide

/-- Claim C7: for a clock block constructed at second 37 of a minute the
initial delay is the time to the next minute boundary plus the 50 ms
fudge allowance; amended bounds: it lies between 22051 and 23050 ms
(inclusive), not between 22000 and 23000 ms, because of the +50 ms skew;
subsequent recomputations occur every 60000 ms thereafter. -/
theorem C7_thm (ms sec : Nat) (h1 : 37000 ≤ ms + sec * 1000)
    (h2 : ms + sec * 1000 < 38000) :
    (22051 ≤ DatetimeBlock.delay ms sec
      ∧ DatetimeBlock.delay ms sec ≤ 23050)
    ∧ (∀ k, DatetimeBlock.fireTime ms sec (k + 1)
          - DatetimeBlock.fireTime ms sec k = 60000)
    ∧ DatetimeBlock.fireTime ms sec 0 = DatetimeBlock.delay ms sec := by
  refine ⟨⟨?_, ?_⟩, ?_, ?_⟩
  · simp only [DatetimeBlock.delay, config_fudgeTimeout]
    omega
  · simp only [DatetimeBlock.delay, config_fudgeTimeout]
    omega
  · intro k
    simp only [DatetimeBlock.fireTime, IntervalBlock.fireTime]
    omega
  · simp [DatetimeBlock.fireTime, IntervalBlock.fireTime]

/-- Claim C7 witness: construction 37.5 s into the minute. -/
theorem C7_wit :
    (22051 ≤ DatetimeBlock.delay 500 37
      ∧ DatetimeBlock.delay 500 37 ≤ 23050)
    ∧ (∀ k, DatetimeBlock.fireTime 500 37 (k + 1)
          - DatetimeBlock.fireTime 500 37 k = 60000)
    ∧ DatetimeBlock.fireTime 500 37 0 = DatetimeBlock.delay 500 37 :=
  C7_thm 500 37 (by decide) (by decide)

/-- Claim C7 counterexample: constructed exactly at second 37 (0 ms) the
computed delay is 23050 ms, outside the claimed 22000-23000 ms window. -/
theorem C7_cex :
    DatetimeBlock.delay 0 37 = 23050
    ∧ ¬(DatetimeBlock.delay 0 37 ≤ 23000) := by
  constructor
  · decide
  · decide

/-- Claim C4: the claim describes the intended no-op dispatch on an
unreadable side channel, and the consuming SIGUSR1/SIGUSR2 handlers do
guard the error-first callback; but `getUpdateBlocks` is missing a
`return` after `callback(err)`, so after reporting the error it evaluates
`data.trim()` on the undefined `data` and an uncaught TypeError escapes
the readFile handler (terminating the process).  Evaluated at the failing
input: a read error yields the error callback AND an escaping TypeError,
while a successful read yields the parsed list and no error. -/
theorem C4_thm :
    getUpdateBlocks true none
      = ([GUBCall.errCall], some JsError.typeError)
    ∧ getUpdateBlocks false (some "VolumeBlock,DatetimeBlock")
        = ([GUBCall.listCall ["VolumeBlock", "DatetimeBlock"]], none) := by
  constructor
  · rfl
  · decide

lemma barRender_of_eq (ts : List String) (s : RBar)
    (h : composeLine ts = s.prev) : Bar.render ts s = (s, []) := by
  simp [Bar.render, h]

lemma barRender_of_ne (ts : List String) (s : RBar)
    (h : composeLine ts ≠ s.prev) :
    Bar.render ts s = (⟨composeLine ts⟩, [composeLine ts]) := by
  simp [Bar.render, h]

lemma barRenderRun_chain (tss : List (List String)) (s : RBar) :
    List.Chain' (fun a b => a ≠ b) (s.prev :: (Bar.renderRun tss s).2) := by
  induction tss generalizing s with
  | nil => simp [Bar.renderRun]
  | cons ts rest ih =>
      by_cases h : composeLine ts = s.prev
      · simp only [Bar.renderRun, barRender_of_eq ts s h, List.nil_append]
        exact ih s
      · simp only [Bar.renderRun, barRender_of_ne ts s h, List.cons_append,
          List.nil_append]
        rw [List.chain'_cons]
        exact ⟨fun hh => h hh.symm, ih ⟨composeLine ts⟩⟩

/-- Claim C1: the deduplicating compositor `Bar.render` prints the
composed line if and only if it differs from the previously printed line,
never prints two equal consecutive lines, and recomposing an identical
state twice yields at most one print (exactly one when it differs from
the baseline); amended to exclude the second compositor of
`src/unnamed/part_000` (`Bar.output`), which prints unconditionally on
every update notification. -/
theorem C1_thm (ts : List String) (tss : List (List String)) (s : RBar) :
    ((Bar.render ts s).2 ≠ [] ↔ composeLine ts ≠ s.prev)
    ∧ ((Bar.render ts s).2 = [] ∨ (Bar.render ts s).2 = [composeLine ts])
    ∧ List.Chain' (fun a b => a ≠ b) (s.prev :: (Bar.renderRun tss s).2)
    ∧ ((Bar.renderRun [ts, ts] s).2.length
        = if composeLine ts = s.prev then 0 else 1) := by
  refine ⟨?_, ?_, barRenderRun_chain tss s, ?_⟩
  · by_cases h : composeLine ts = s.prev
    · simp [Bar.render, h]
    · simp [Bar.render, h]
  · by_cases h : composeLine ts = s.prev
    · simp [Bar.render, h]
    · simp [Bar.render, h]
  · by_cases h : composeLine ts = s.prev
    · simp [Bar.renderRun, Bar.render, h]
    · simp [Bar.renderRun, Bar.render, h]

/-- Claim C1 counterexample: the second compositor of
`src/unnamed/part_000` (`Bar.output`) prints the same composed line twice
when two consecutive update notifications find identical state — two
print events, not one. -/
theorem C1_cex :
    Bar.outputRun [["X"], ["X"]] = ["X", "X"]
    ∧ (Bar.outputRun [["X"], ["X"]]).length ≠ 1 := by
  constructor
  · rfl
  · decide

/-- The `_output` the SSID block renders when `iwgetid` fails. -/
def ssidDisconnectedText : String :=
  addAction (addBG " disconnected " "cUrgent") (config_termExec ++ " nmtui")
    none

/-- Claim C6: on a failed external command the SSID block renders the
urgent-styled " disconnected " placeholder, `query()` immediately after
returns that urgent-styled (non-empty) text, and no exception escapes the
callback; amended to the SSID block (and likewise the weather block): the
volume block, by contrast, reports an error event and keeps its previous
text on command failure (see the counterexample), and unparsable command
output raises a TypeError in either block. -/
theorem C6_thm (out : String) :
    SsidBlock.updateCb true out = Except.ok ssidDisconnectedText
    ∧ containsSub ssidDisconnectedText config_cUrgent = true
    ∧ Block.query ssidDisconnectedText ≠ ""
    ∧ containsSub (Block.query ssidDisconnectedText) config_cUrgent
        = true := by
  refine ⟨rfl, by decide, by decide, by decide⟩

/-- Claim C6 counterexample: when `amixer get Master` fails, the volume
block's callback leaves its previous text " 50 " in place (stale, not an
urgent-styled placeholder) and emits an error event. -/
theorem C6_cex :
    VolumeBlock.updateCb true "" " 50 " = Except.ok ⟨" 50 ", true⟩
    ∧ containsSub " 50 " config_cUrgent = false := by
  refine ⟨rfl, by decide⟩

/-- Claim C10: `BatteryBlock.update` applies urgent styling not only at
critical charge while not charging, but — because the unparenthesized
`||` — also whenever the battery state is 'fully-charged', regardless of
the percentage. -/
theorem C10_thm (time : Option String) (state percentage : String) :
    batteryUrgentCond (jsPercent percentage) "fully-charged" = true
    ∧ (state = "fully-charged" →
        BatteryBlock.updateOutput time state percentage
          = addBG (BatteryBlock.plainText time state percentage) "cUrgent")
    ∧ (batteryUrgentCond (jsPercent percentage) state = true ↔
        ((∃ p, jsPercent percentage = some p ∧ p ≤ config_batCritical)
          ∧ state ≠ "charging") ∨ state = "fully-charged") := by
  refine ⟨?_, ?_, ?_⟩
  · simp [batteryUrgentCond]
  · intro h
    subst h
    simp only [BatteryBlock.updateOutput, batteryUrgentCond]
    rw [if_pos (by simp)]
  · cases hp : jsPercent percentage with
    | none => simp [batteryUrgentCond]
    | some p => simp [batteryUrgentCond]

/-- Claim C10 witness: a full (100%), fully-charged battery is rendered
with the urgent background. -/
theorem C10_wit :
    BatteryBlock.updateOutput none "fully-charged" "100%"
      = addBG (BatteryBlock.plainText none "fully-charged" "100%") "cUrgent"
    ∧ BatteryBlock.plainText none "fully-charged" "100%" = " ✓ 100 " :=
  ⟨(C10_thm none "fully-charged" "100%").2.1 rfl, by decide⟩

lemma jsIndexOf_nonneg_or (l : List String) (x : String) :
    jsIndexOf l x = -1 ∨ 0 ≤ jsIndexOf l x := by
  induction l with
  | nil => left; rfl
  | cons a rest ih =>
      by_cases h : a = x
      · right
        simp [jsIndexOf, h]
      · rcases ih with h1 | h1
        · left
          simp [jsIndexOf, h, h1]
        · right
          simp only [jsIndexOf, if_neg h]
          rw [if_neg (by omega)]
          omega

lemma jsIndexOf_gt_iff (l : List String) (x : String) :
    jsIndexOf l x > -1 ↔ x ∈ l := by
  induction l with
  | nil =>
      simp [jsIndexOf]
  | cons a rest ih =>
      by_cases h : a = x
      · subst h
        simp [jsIndexOf]
      · rcases jsIndexOf_nonneg_or rest x with h1 | h1
        · have hv : jsIndexOf (a :: rest) x = -1 := by
            simp [jsIndexOf, h, h1]
          rw [hv]
          have hmem : x ∉ rest := by
            intro hm
            have := ih.mpr hm
            omega
          constructor
          · intro hh
            exact absurd hh (by omega)
          · intro hh
            rcases List.mem_cons.mp hh with hh | hh
            · exact absurd hh.symm h
            · exact absurd hh hmem
        · have hv : jsIndexOf (a :: rest) x = jsIndexOf rest x + 1 := by
            simp only [jsIndexOf, if_neg h]
            rw [if_neg (by omega)]
          rw [hv]
          have hmem : x ∈ rest := ih.mp (by omega)
          constructor
          · intro _
            exact List.mem_cons.mpr (Or.inr hmem)
          · intro _
            omega

/-- Claim C3: a SIGUSR1 delivery with a readable side-channel list L
invokes `update()` on exactly the blocks whose constructor name is in L
and leaves every other block unchanged; a SIGUSR2 delivery does the same
with `action()`. -/
theorem C3_thm (upd act : DBlock → DBlock) (L : List String)
    (bs : List DBlock) (i : Nat) (h : i < bs.length) :
    (bs[i].tag ∈ L →
      (sigusr1Dispatch upd L bs)[i]? = some (upd bs[i])
      ∧ (sigusr2Dispatch act L bs)[i]? = some (act bs[i]))
    ∧ (bs[i].tag ∉ L →
      (sigusr1Dispatch upd L bs)[i]? = some bs[i]
      ∧ (sigusr2Dispatch act L bs)[i]? = some bs[i]) := by
  have h1 : (sigusr1Dispatch upd L bs)[i]?
      = some (sigusr1Handler upd L bs[i]) := by
    simp [sigusr1Dispatch, List.getElem?_eq_getElem h]
  have h2 : (sigusr2Dispatch act L bs)[i]?
      = some (sigusr2Handler act L bs[i]) := by
    simp [sigusr2Dispatch, List.getElem?_eq_getElem h]
  constructor
  · intro hm
    rw [h1, h2, sigusr1Handler, sigusr2Handler,
      if_pos ((jsIndexOf_gt_iff L _).mpr hm),
      if_pos ((jsIndexOf_gt_iff L _).mpr hm)]
    exact ⟨rfl, rfl⟩
  · intro hm
    rw [h1, h2, sigusr1Handler, sigusr2Handler,
      if_neg (fun hh => hm ((jsIndexOf_gt_iff L _).mp hh)),
      if_neg (fun hh => hm ((jsIndexOf_gt_iff L _).mp hh))]
    exact ⟨rfl, rfl⟩

/-- The `update()` effect used in the claim C3 scenario. -/
def C3_upd : DBlock → DBlock := fun b => ⟨b.tag, "updated"⟩

/-- The `action()` effect used in the claim C3 scenario. -/
def C3_act : DBlock → DBlock := fun b => ⟨b.tag, "acted"⟩

/-- The bar of the claim C3 scenario: a volume block and a clock block. -/
def C3_bar : List DBlock := [⟨"VolumeBlock", " … "⟩, ⟨"DatetimeBlock", " t "⟩]

/-- Claim C3 witness: with side channel ["VolumeBlock"], SIGUSR1 updates
only the volume block; the clock block is untouched; SIGUSR2 invokes the
action on only the volume block. -/
theorem C3_wit :
    (sigusr1Dispatch C3_upd ["VolumeBlock"] C3_bar)[0]?
      = some ⟨"VolumeBlock", "updated"⟩
    ∧ (sigusr2Dispatch C3_act ["VolumeBlock"] C3_bar)[0]?
      = some ⟨"VolumeBlock", "acted"⟩
    ∧ (sigusr1Dispatch C3_upd ["VolumeBlock"] C3_bar)[1]?
      = some ⟨"DatetimeBlock", " t "⟩
    ∧ (sigusr2Dispatch C3_act ["VolumeBlock"] C3_bar)[1]?
      = some ⟨"DatetimeBlock", " t "⟩ :=
  ⟨((C3_thm C3_upd C3_act ["VolumeBlock"] C3_bar 0 (by decide)).1
      (by decide)).1,
   ((C3_thm C3_upd C3_act ["VolumeBlock"] C3_bar 0 (by decide)).1
      (by decide)).2,
   ((C3_thm C3_upd C3_act ["VolumeBlock"] C3_bar 1 (by decide)).2
      (by decide)).1,
   ((C3_thm C3_upd C3_act ["VolumeBlock"] C3_bar 1 (by decide)).2
      (by decide)).2⟩

/-- Sorted trigger times with consecutive spacing strictly below `d`. -/
def gapsBelow (d : Nat) : List Nat → Bool
  | [] => true
  | [_] => true
  | t :: t' :: rest => (t ≤ t' && t' < t + d) && gapsBelow d (t' :: rest)

lemma debounceExec_burst (d : Nat) (t : Nat) (rest : List Nat)
    (h : gapsBelow d (t :: rest) = true) :
    debounceExec d (t :: rest) = [List.getLastD (t :: rest) 0 + d] := by
  induction rest generalizing t with
  | nil => rfl
  | cons t' rest ih =>
      simp only [gapsBelow, Bool.and_eq_true, decide_eq_true_eq] at h
      have hlt : t' < t + d := by
        have := h.1
        simp at this
        exact this.2
      have hnot : ¬(t + d ≤ t') := by omega
      simp only [debounceExec, if_neg hnot]
      rw [ih t' (by
        have := h.2
        simpa [gapsBelow] using this)]
      simp [List.getLastD_cons]

lemma fudgeTrigger_inv (s : FudgeState) (h : FudgeInv s) :
    FudgeInv (fudgeTrigger s) := by
  obtain ⟨hlen, hall⟩ := h
  have hnil : (match s.fudge with
      | some t => { s with active := s.active.erase t }
      | none => s).active = [] := by
    cases hf : s.fudge with
    | none =>
        cases ha : s.active with
        | nil => simp [ha]
        | cons a as =>
            have := (hall a (by simp [ha])).1
            rw [hf] at this
            exact absurd this (by simp)
    | some t =>
        cases ha : s.active with
        | nil => simp [ha]
        | cons a as =>
            have h1 := (hall a (by simp [ha])).1
            rw [hf] at h1
            have h2 : a = t := by
              injection h1.symm
            have h3 : as = [] := by
              have := hlen
              rw [ha] at this
              simp at this
              exact this
            subst h2
            subst h3
            simp [ha, List.erase_cons_head]
  constructor
  · simp [fudgeTrigger, hnil]
  · intro t ht
    simp only [fudgeTrigger, hnil] at ht ⊢
    simp only [List.nil_append, List.mem_singleton] at ht
    subst ht
    cases hf : s.fudge <;> simp [hf]

/-- Claim C2: for a sorted burst of triggers whose consecutive spacing is
below the block's fudge delay `d`, exactly one debounced recomputation
executes, `d` ms after the last trigger; and the
clearTimeout-then-setTimeout idiom keeps at most one pending fudge timer
per block at all times, each trigger cancelling the outstanding timer and
arming a fresh one. -/
theorem C2_thm (d : Nat) (ts : List Nat) (h1 : ts ≠ [])
    (h2 : gapsBelow d ts = true) :
    debounceExec d ts = [List.getLastD ts 0 + d]
    ∧ ∀ n, FudgeInv (fudgeRun n) := by
  constructor
  · cases ts with
    | nil => exact absurd rfl h1
    | cons t rest => exact debounceExec_burst d t rest h2
  · intro n
    induction n with
    | zero =>
        refine ⟨by simp [fudgeRun, fudgeInit], ?_⟩
        intro t ht
        simp [fudgeRun, fudgeInit] at ht
    | succ n ih => exact fudgeTrigger_inv (fudgeRun n) ih

/-- Claim C2 witness: a burst of three triggers at 0, 10 and 20 ms with
delay 50 ms executes exactly one recomputation, at 70 ms. -/
theorem C2_wit :
    ([0, 10, 20] : List Nat) ≠ []
    ∧ gapsBelow 50 [0, 10, 20] = true
    ∧ (debounceExec 50 [0, 10, 20] = [70]
        ∧ ∀ n, FudgeInv (fudgeRun n)) :=
  ⟨by decide, by decide, C2_thm 50 [0, 10, 20] (by decide) (by decide)⟩

@[simp] lemma clearIntervalOn_interval (s : AnimState) :
    (clearIntervalOn s).interval = s.interval := by
  cases h : s.interval <;> simp [clearIntervalOn, h]

@[simp] lemma clearIntervalOn_nextId (s : AnimState) :
    (clearIntervalOn s).nextId = s.nextId := by
  cases h : s.interval <;> simp [clearIntervalOn, h]

@[simp] lemma clearIntervalOn_expanded (s : AnimState) :
    (clearIntervalOn s).expanded = s.expanded := by
  cases h : s.interval <;> simp [clearIntervalOn, h]

@[simp] lemma clearIntervalOn_expanding (s : AnimState) :
    (clearIntervalOn s).expanding = s.expanding := by
  cases h : s.interval <;> simp [clearIntervalOn, h]

@[simp] lemma clearIntervalOn_startExpand (s : AnimState) :
    (clearIntervalOn s).startExpand = s.startExpand := by
  cases h : s.interval <;> simp [clearIntervalOn, h]

@[simp] lemma clearIntervalOn_index (s : AnimState) :
    (clearIntervalOn s).index = s.index := by
  cases h : s.interval <;> simp [clearIntervalOn, h]

@[simp] lemma animTail_active (arr : List String) (s : AnimState) :
    (animTail arr s).active = s.active := by
  by_cases h : s.expanding <;> simp [animTail, h]

@[simp] lemma animTail_interval (arr : List String) (s : AnimState) :
    (animTail arr s).interval = s.interval := by
  by_cases h : s.expanding <;> simp [animTail, h]

@[simp] lemma animTail_nextId (arr : List String) (s : AnimState) :
    (animTail arr s).nextId = s.nextId := by
  by_cases h : s.expanding <;> simp [animTail, h]

@[simp] lemma animTail_startExpand (arr : List String) (s : AnimState) :
    (animTail arr s).startExpand = s.startExpand := by
  by_cases h : s.expanding <;> simp [animTail, h]

@[simp] lemma animTail_expanding (arr : List String) (s : AnimState) :
    (animTail arr s).expanding = s.expanding := by
  by_cases h : s.expanding <;> simp [animTail, h]

@[simp] lemma animTail_expanded (arr : List String) (s : AnimState) :
    (animTail arr s).expanded = s.expanded := by
  by_cases h : s.expanding <;> simp [animTail, h]

lemma clearIntervalOn_active_of_inv (s : AnimState)
    (hlen : s.active.length ≤ 1)
    (hall : ∀ t ∈ s.active, s.interval = some t) :
    (clearIntervalOn s).active = [] := by
  cases hf : s.interval with
  | none =>
      cases ha : s.active with
      | nil => simp [clearIntervalOn, hf, ha]
      | cons a as =>
          have := hall a (by simp [ha])
          rw [hf] at this
          exact absurd this (by simp)
  | some t =>
      cases ha : s.active with
      | nil => simp [clearIntervalOn, hf, ha]
      | cons a as =>
          have h1 := hall a (by simp [ha])
          rw [hf] at h1
          have h2 : a = t := by injection h1.symm
          have h3 : as = [] := by
            rw [ha] at hlen
            simp at hlen
            exact hlen
          subst h2
          subst h3
          simp [clearIntervalOn, hf, ha, List.erase_cons_head]

lemma animFrame_active_of_nil (arr : List String) (s : AnimState)
    (h : s.active = []) : (animFrame arr s).active = [] := by
  simp only [animFrame, animTail_active]
  split
  · cases hf : s.interval <;> simp [clearIntervalOn, hf, h]
  · exact h

lemma animFrame_nextId (arr : List String) (s : AnimState) :
    (animFrame arr s).nextId = s.nextId := by
  simp only [animFrame, animTail_nextId]
  split
  · simp
  · rfl

lemma animFrame_startExpand (arr : List String) (s : AnimState) :
    (animFrame arr s).startExpand = s.startExpand := by
  simp only [animFrame, animTail_startExpand]
  split
  · simp
  · rfl

@[simp] lemma setIntervalOn_active (s : AnimState) :
    (setIntervalOn s).active = s.active ++ [s.nextId] := rfl

@[simp] lemma setIntervalOn_interval (s : AnimState) :
    (setIntervalOn s).interval = some s.nextId := rfl

@[simp] lemma setIntervalOn_nextId (s : AnimState) :
    (setIntervalOn s).nextId = s.nextId + 1 := rfl

@[simp] lemma setIntervalOn_startExpand (s : AnimState) :
    (setIntervalOn s).startExpand = s.startExpand := rfl

@[simp] lemma setIntervalOn_expanding (s : AnimState) :
    (setIntervalOn s).expanding = s.expanding := rfl

@[simp] lemma setIntervalOn_index (s : AnimState) :
    (setIntervalOn s).index = s.index := rfl

lemma animFrame_timer_inv (arr : List String) (s : AnimState)
    (hlen : s.active.length ≤ 1)
    (hall : ∀ t ∈ s.active, s.interval = some t ∧ t < s.nextId) :
    (animFrame arr s).active.length ≤ 1
    ∧ ∀ t ∈ (animFrame arr s).active,
        (animFrame arr s).interval = some t
        ∧ t < (animFrame arr s).nextId := by
  simp only [animFrame, animTail_active, animTail_interval, animTail_nextId]
  split
  · have hnil :
        (clearIntervalOn
          { s with index := nextAnimationIdx arr s.index (!s.expanded) }
        ).active = [] := by
      apply clearIntervalOn_active_of_inv
      · simpa using hlen
      · intro t ht
        exact (hall t (by simpa using ht)).1
    simp [hnil]
  · refine ⟨by simpa using hlen, ?_⟩
    intro t ht
    have := hall t (by simpa using ht)
    simpa using this

lemma animUpdate_start_fields (arr : List String) (s : AnimState)
    (hs : s.startExpand = true)
    (hlen : s.active.length ≤ 1)
    (hall : ∀ t ∈ s.active, s.interval = some t) :
    (animUpdate arr s).active = [s.nextId]
    ∧ (animUpdate arr s).interval = some s.nextId
    ∧ (animUpdate arr s).nextId = s.nextId + 1
    ∧ (animUpdate arr s).startExpand = false := by
  have hclr :
      (clearIntervalOn { s with startExpand := false, expanding := true }
      ).active = [] := by
    apply clearIntervalOn_active_of_inv
    · simpa using hlen
    · intro t ht
      simpa using hall t (by simpa using ht)
  have hfr :
      (animFrame arr
        (clearIntervalOn { s with startExpand := false, expanding := true })
      ).active = [] :=
    animFrame_active_of_nil _ _ hclr
  simp only [animUpdate, hs, if_true, animTail_active, animTail_interval,
    animTail_nextId, animTail_startExpand, setIntervalOn_active,
    setIntervalOn_interval, setIntervalOn_nextId, setIntervalOn_startExpand,
    hfr, animFrame_nextId, animFrame_startExpand, clearIntervalOn_nextId,
    clearIntervalOn_startExpand, List.nil_append]
  exact ⟨trivial, trivial, trivial, trivial⟩

lemma animAction_fields (arr : List String) (s : AnimState)
    (hlen : s.active.length ≤ 1)
    (hall : ∀ t ∈ s.active, s.interval = some t) :
    (animAction arr s).active = [s.nextId]
    ∧ (animAction arr s).interval = some s.nextId
    ∧ (animAction arr s).nextId = s.nextId + 1
    ∧ (animAction arr s).startExpand = false := by
  have := animUpdate_start_fields arr
    { s with expanded := !s.expanded, startExpand := true } rfl
    (by simpa using hlen) (by intro t ht; simpa using hall t (by simpa using ht))
  simpa [animAction] using this

lemma animStep_inv (s : AnimState) (e : AnimEvent) (h : AnimInv s) :
    AnimInv (animStep s e) := by
  obtain ⟨hse, hlen, hall⟩ := h
  cases e with
  | act arr =>
      obtain ⟨h1, h2, h3, h4⟩ :=
        animAction_fields arr s hlen (fun t ht => (hall t ht).1)
      refine ⟨h4, ?_, ?_⟩
      · rw [show (animStep s (AnimEvent.act arr)) = animAction arr s from rfl,
          h1]
        simp
      · intro t ht
        rw [show (animStep s (AnimEvent.act arr)) = animAction arr s from rfl]
          at ht ⊢
        rw [h1] at ht
        simp at ht
        subst ht
        rw [h2, h3]
        exact ⟨rfl, by omega⟩
  | upd arr =>
      show AnimInv (animUpdate arr s)
      have hupd : animUpdate arr s = animTail arr s := by
        simp [animUpdate, hse]
      rw [hupd]
      refine ⟨by simpa using hse, by simpa using hlen, ?_⟩
      intro t ht
      simpa using hall t (by simpa using ht)
  | fire arr =>
      show AnimInv (match s.interval with
        | some t => if t ∈ s.active then animFrame arr s else s
        | none => s)
      cases hf : s.interval with
      | none => exact ⟨hse, hlen, hall⟩
      | some t =>
          show AnimInv (if t ∈ s.active then animFrame arr s else s)
          by_cases hm : t ∈ s.active
          · rw [if_pos hm]
            obtain ⟨ha, hb⟩ := animFrame_timer_inv arr s hlen hall
            exact ⟨by simpa [animFrame_startExpand] using hse, ha, hb⟩
          · rw [if_neg hm]
            exact ⟨hse, hlen, hall⟩

lemma animRun_inv_aux (es : List AnimEvent) :
    ∀ s, AnimInv s → AnimInv (es.foldl animStep s) := by
  induction es with
  | nil => intro s h; exact h
  | cons e rest ih =>
      intro s h
      exact ih (animStep s e) (animStep_inv s e h)

lemma animRun_inv (es : List AnimEvent) : AnimInv (animRun es) := by
  apply animRun_inv_aux
  refine ⟨rfl, by simp [animInit], ?_⟩
  intro t ht
  simp [animInit] at ht

lemma animTail_of_expanding (arr : List String) (s : AnimState)
    (h : s.expanding = true) : animTail arr s = s := by
  simp [animTail, h]

lemma animFrame_no_boundary (arr : List String) (s : AnimState)
    (hc : ((s.expanded
        && decide ((arr.length : Int)
            ≤ nextAnimationIdx arr s.index (!s.expanded)))
      || decide (nextAnimationIdx arr s.index (!s.expanded) ≤ 0)) = false)
    (he : s.expanding = true) :
    animFrame arr s
      = { s with index := nextAnimationIdx arr s.index (!s.expanded) } := by
  simp only [animFrame]
  rw [if_neg (by simp [hc])]
  exact animTail_of_expanding arr _ (by simpa using he)

lemma animAction_index_no_boundary (arr : List String) (s : AnimState)
    (hb : (((!s.expanded)
        && decide ((arr.length : Int)
            ≤ nextAnimationIdx arr s.index s.expanded))
      || decide (nextAnimationIdx arr s.index s.expanded ≤ 0)) = false) :
    (animAction arr s).index = nextAnimationIdx arr s.index s.expanded := by
  have h2e : (clearIntervalOn
      { s with expanded := !s.expanded, startExpand := false,
               expanding := true }).expanding = true := by simp
  have h2x : (clearIntervalOn
      { s with expanded := !s.expanded, startExpand := false,
               expanding := true }).index = s.index := by simp
  have h2d : (clearIntervalOn
      { s with expanded := !s.expanded, startExpand := false,
               expanding := true }).expanded = !s.expanded := by simp
  have hfr := animFrame_no_boundary arr
    (clearIntervalOn
      { s with expanded := !s.expanded, startExpand := false,
               expanding := true })
    (by rw [h2x, h2d, Bool.not_not]; exact hb) h2e
  show (animTail arr (setIntervalOn (animFrame arr
    (clearIntervalOn
      { s with expanded := !s.expanded, startExpand := false,
               expanding := true })))).index
    = nextAnimationIdx arr s.index s.expanded
  rw [hfr]
  rw [animTail_of_expanding arr _ (by simp [h2e])]
  simp [h2x, h2d]

/-- Claim C5: in every reachable state of an animated expandable block at
most one interval timer is armed; invoking `action()` when a timer is
armed cancels it — it is gone from the armed set while the (single) fresh
timer runs — and, when the step does not reach the animation boundary,
the animation continues from the current index (one token step from it),
not from a fixed start point. -/
theorem C5_thm (es : List AnimEvent) (arr : List String) (t : Nat) :
    AnimInv (animRun es)
    ∧ ((animRun es).interval = some t → t ∈ (animRun es).active →
        (t ∉ (animAction arr (animRun es)).active
         ∧ (animAction arr (animRun es)).active.length ≤ 1
         ∧ ((((!(animRun es).expanded)
              && decide ((arr.length : Int)
                  ≤ nextAnimationIdx arr (animRun es).index
                      (animRun es).expanded))
            || decide (nextAnimationIdx arr (animRun es).index
                  (animRun es).expanded ≤ 0)) = false →
            (animAction arr (animRun es)).index
              = nextAnimationIdx arr (animRun es).index
                  (animRun es).expanded))) := by
  have hinv := animRun_inv es
  refine ⟨hinv, ?_⟩
  intro hi hm
  obtain ⟨hse, hlen, hall⟩ := hinv
  obtain ⟨h1, h2, h3, h4⟩ :=
    animAction_fields arr (animRun es) hlen (fun u hu => (hall u hu).1)
  have htlt : t < (animRun es).nextId := (hall t hm).2
  refine ⟨?_, ?_, ?_⟩
  · rw [h1]
    simp
    omega
  · rw [h1]
    simp
  · intro hb
    exact animAction_index_no_boundary arr (animRun es) hb

/-- Claim C5 witness: the block is toggled open (arming timer 0) and one
frame fires (index 2 of a 4-token array); toggling again cancels timer 0
and the collapse animation resumes from index 2, stepping to 1. -/
theorem C5_wit :
    AnimInv (animRun [AnimEvent.act ["a", "b", "c", "d"],
      AnimEvent.fire ["a", "b", "c", "d"]])
    ∧ (0 : Nat) ∉ (animAction ["a", "b", "c", "d"]
        (animRun [AnimEvent.act ["a", "b", "c", "d"],
          AnimEvent.fire ["a", "b", "c", "d"]])).active
    ∧ (animAction ["a", "b", "c", "d"]
        (animRun [AnimEvent.act ["a", "b", "c", "d"],
          AnimEvent.fire ["a", "b", "c", "d"]])).index = 1 := by
  have h := C5_thm [AnimEvent.act ["a", "b", "c", "d"],
    AnimEvent.fire ["a", "b", "c", "d"]] ["a", "b", "c", "d"] 0
  have h2 := h.2 (by decide) (by decide)
  refine ⟨h.1, h2.1, ?_⟩
  rw [h2.2.2 (by decide)]
  decide
